import Mathlib

/-!
Verification of the task-tracking service (`todo-api-golang`).

The Go sources are shallowly embedded as executable Lean definitions:

* Machine integers (`int`, `int64`) are modelled as `Nat` on the call domains
  established by the handlers (page ≥ 1, 1 ≤ limit ≤ 100); the query-string
  parsers, which can see arbitrary integers, use `Int`.
* `time.Time` is modelled as `Nat` (chronological order); every `time.Now()`
  read inside a single operation call returns that call's clock value `now`,
  which each stateful operation receives as an explicit argument.
* `uuid.UUID` is modelled as `Nat`; generated ids are explicit arguments.
* Go strings are Lean `String`s; `len` is modelled as character count
  (`String.length`), which agrees with Go's byte length on ASCII data.
  `strings.TrimSpace`, `strings.ToLower`, `strings.Contains` and
  `strconv.Atoi` are given character-list implementations (`strTrim`,
  `strToLower`, `listContains`, `atoi`) so that every definition reduces
  inside the kernel.
* The Go map `map[uuid.UUID]*Task` is modelled as a `Store := List Task`:
  the list records one possible enumeration order of the map.  Go map
  iteration order is unspecified, so properties that depend on the
  enumeration order hold only relative to a fixed enumeration.
* `sort.Slice` sorts by a strict `less` comparator and is not guaranteed
  stable.  It is refined here by a deterministic stable insertion sort with
  `le a b := !(less b a)`; conclusions that are independent of tie order
  (permutation, membership, counts, page metadata) transfer to every
  implementation of `sort.Slice`, while tie-order conclusions hold of this
  stable refinement.
* Fallible Go functions returning `(T, error)` become `Except String T`;
  mutating service methods additionally return the resulting store.
-/

namespace Todo

instance {ε α : Type} [DecidableEq ε] [DecidableEq α] :
    DecidableEq (Except ε α) := fun x y =>
  match x, y with
  | .ok a, .ok b =>
    if h : a = b then isTrue (by rw [h])
    else isFalse (by intro he; cases he; exact h rfl)
  | .ok _, .error _ => isFalse (by intro he; cases he)
  | .error _, .ok _ => isFalse (by intro he; cases he)
  | .error e, .error f =>
    if h : e = f then isTrue (by rw [h])
    else isFalse (by intro he; cases he; exact h rfl)

/-- Task record, from `internal/domain/task/task.go` (`Task`).  Statuses are
kept as strings exactly as in the Go source (`type TaskStatus string`). -/
structure Task where
  id : Nat
  title : String
  status : String
  userId : Nat
  createdAt : Nat
  updatedAt : Nat
deriving DecidableEq, Repr

/-- The task store: one enumeration of the Go map `map[uuid.UUID]*Task`. -/
abbrev Store := List Task

/-- `UpdateTaskRequest` from `task.go`: optional new title and status. -/
structure UpdateTaskRequest where
  title : Option String
  status : Option String
deriving DecidableEq, Repr

/-- `TaskFilter` from `task.go`: optional status equality and substring search. -/
structure TaskFilter where
  status : Option String
  search : String
deriving DecidableEq, Repr

/-- `TaskSort` from `task.go`: sort field and order, both strings. -/
structure TaskSort where
  field : String
  order : String
deriving DecidableEq, Repr

/-- `PaginationInfo` from `pkg/types/common.go`. -/
structure PaginationInfo where
  page : Nat
  limit : Nat
  total : Nat
  totalPages : Nat
deriving DecidableEq, Repr

/-- `strings.TrimSpace`: drop leading and trailing whitespace.  Implemented
over the character list; `Char.isWhitespace` covers the ASCII whitespace
characters, which is where Go's Unicode-aware trimming matters here. -/
def strTrim (s : String) : String :=
  ((s.toList.dropWhile Char.isWhitespace).reverse.dropWhile
    Char.isWhitespace).reverse.asString

/-- Digit-string evaluation for `strconv.Atoi`: all characters must be
decimal digits and there must be at least one. -/
def digitsVal (l : List Char) : Option Nat :=
  if l.isEmpty then none else go l 0
where
  /-- Accumulate the decimal value, failing on a non-digit. -/
  go : List Char → Nat → Option Nat
    | [], acc => some acc
    | c :: t, acc =>
      if c.isDigit then go t (acc * 10 + (c.toNat - '0'.toNat))
      else none

/-- `strconv.Atoi`: optional sign followed by decimal digits.  The model is
unbounded where Go errors out beyond the `int` range. -/
def atoi (s : String) : Option Int :=
  match s.toList with
  | [] => none
  | '-' :: rest => (digitsVal rest).map (fun n => -(n : Int))
  | '+' :: rest => (digitsVal rest).map (fun n => (n : Int))
  | l => (digitsVal l).map (fun n => (n : Int))

/-- `strings.ToLower`, character by character. -/
def strToLower (s : String) : String :=
  (s.toList.map Char.toLower).asString

/-- Lexicographic order on character lists by codepoint, the model of Go's
`<` on strings (byte order; the two agree on ASCII). -/
def listLtChars : List Char → List Char → Bool
  | [], [] => false
  | [], _ :: _ => true
  | _ :: _, [] => false
  | a :: as, b :: bs =>
    if a.toNat < b.toNat then true
    else if b.toNat < a.toNat then false
    else listLtChars as bs

/-- Go string comparison `a < b`. -/
def strLt (a b : String) : Bool :=
  listLtChars a.toList b.toList

/-- `isValidStatus` from `task.go`. -/
def isValidStatus (status : String) : Bool :=
  status == "pending" || status == "in_progress" ||
  status == "completed" || status == "cancelled"

/-- `NewTask` from `task.go`.  The Go constructor reads `time.Now()` once for
each timestamp field; under the per-call clock model both reads return the
call's `now`. -/
def NewTask (id : Nat) (title : String) (userID : Nat) (now : Nat) : Task :=
  { id := id, title := title, status := "pending", userId := userID,
    createdAt := now, updatedAt := now }

/-- `CreateTaskRequest.Validate` from `task.go`: the emptiness test trims the
title, the length test is applied to the untrimmed title. -/
def validateCreateTaskRequest (title : String) : Option String :=
  if strTrim title = "" then some "title is required"
  else if title.length > 200 then some "title must be at most 200 characters"
  else none

/-- `UpdateTaskRequest.Validate` from `task.go`. -/
def validateUpdateTaskRequest (req : UpdateTaskRequest) : Option String :=
  match req.title with
  | some t =>
    if strTrim t = "" then some "title cannot be empty"
    else if t.length > 200 then some "title must be at most 200 characters"
    else validateStatusField req
  | none => validateStatusField req
where
  /-- The status clause of `UpdateTaskRequest.Validate`. -/
  validateStatusField (req : UpdateTaskRequest) : Option String :=
    match req.status with
    | some st => if isValidStatus st then none else some "invalid status"
    | none => none

/-- `Task.Update` from `task.go`: apply the present fields, refresh the
update timestamp. -/
def Task.applyPatch (t : Task) (req : UpdateTaskRequest) (now : Nat) : Task :=
  { t with
    title := req.title.getD t.title,
    status := req.status.getD t.status,
    updatedAt := now }

/-- Go map lookup `s.tasks[id]`. -/
def findTask (s : Store) (id : Nat) : Option Task :=
  List.find? (fun t => t.id == id) s

/-- `CreateTask` from `internal/service/task/task_service.go`: validate, build
the task, insert it into the store. -/
def CreateTask (s : Store) (title : String) (userID : Nat) (newID : Nat)
    (now : Nat) : Except String Task × Store :=
  match validateCreateTaskRequest title with
  | some e => (Except.error e, s)
  | none =>
    let newTask := NewTask newID title userID now
    (Except.ok newTask, s ++ [newTask])

/-- `GetTaskByID` from `task_service.go`: existence check, then ownership. -/
def GetTaskByID (s : Store) (id : Nat) (userID : Nat) : Except String Task :=
  match findTask s id with
  | none => Except.error "task not found"
  | some t =>
    if t.userId ≠ userID then Except.error "access denied"
    else Except.ok t

/-- `UpdateTask` from `task_service.go`: validate, fetch, ownership check,
then mutate the stored task in place. -/
def UpdateTask (s : Store) (id : Nat) (req : UpdateTaskRequest)
    (userID : Nat) (now : Nat) : Except String Task × Store :=
  match validateUpdateTaskRequest req with
  | some e => (Except.error e, s)
  | none =>
    match findTask s id with
    | none => (Except.error "task not found", s)
    | some t =>
      if t.userId ≠ userID then (Except.error "access denied", s)
      else
        let t' := t.applyPatch req now
        (Except.ok t', List.map (fun x => if x.id == id then t' else x) s)

/-- `DeleteTask` from `task_service.go`: fetch, ownership check, remove. -/
def DeleteTask (s : Store) (id : Nat) (userID : Nat) :
    Except String Unit × Store :=
  match findTask s id with
  | none => (Except.error "task not found", s)
  | some t =>
    if t.userId ≠ userID then (Except.error "access denied", s)
    else (Except.ok (), List.filter (fun x => !(x.id == id)) s)

/-- `strings.Contains`: `sub` occurs contiguously inside `s`. -/
def listContains (s sub : List Char) : Bool :=
  match s with
  | [] => sub.isEmpty
  | _ :: t => List.isPrefixOf sub s || listContains t sub

/-- Case-insensitive substring containment:
`strings.Contains(strings.ToLower(title), strings.ToLower(search))`
from `applyFilters` in `task_service.go`. -/
def titleMatches (title search : String) : Bool :=
  listContains (strToLower title).toList (strToLower search).toList

/-- `applyFilters` from `task_service.go`: keep the tasks that pass the
status equality test and the case-insensitive title search. -/
def applyFilters (tasks : List Task) (filter : Option TaskFilter) :
    List Task :=
  match filter with
  | none => tasks
  | some f =>
    List.filter (fun t =>
      (match f.status with
       | some st => t.status == st
       | none => true) &&
      (f.search == "" || titleMatches t.title f.search)) tasks

/-- The `statusOrder` map in `applySorting`: Go map indexing yields the zero
value `0` for a status outside the four known ones. -/
def statusOrder (status : String) : Nat :=
  if status = "pending" then 1
  else if status = "in_progress" then 2
  else if status = "completed" then 3
  else if status = "cancelled" then 4
  else 0

/-- The strict `less` comparator passed to `sort.Slice` in `applySorting`;
the `created_at` case also covers the `default` fallthrough. -/
def lessTask (o : TaskSort) (a b : Task) : Bool :=
  if o.field = "title" then
    (if o.order = "asc" then strLt a.title b.title
     else strLt b.title a.title)
  else if o.field = "status" then
    (if o.order = "asc" then decide (statusOrder a.status < statusOrder b.status)
     else decide (statusOrder b.status < statusOrder a.status))
  else if o.field = "updated_at" then
    (if o.order = "asc" then decide (a.updatedAt < b.updatedAt)
     else decide (b.updatedAt < a.updatedAt))
  else
    (if o.order = "asc" then decide (a.createdAt < b.createdAt)
     else decide (b.createdAt < a.createdAt))

/-- Two tasks tie under the comparator: neither is `lessTask`-below the
other. -/
def tieTask (o : TaskSort) (a b : Task) : Bool :=
  !(lessTask o a b) && !(lessTask o b a)

/-- Insert into a sorted list: keep `a` in front of the first element it is
`le`-below; a stable refinement of the reordering done by `sort.Slice`. -/
def insertLe (le : Task → Task → Bool) (a : Task) : List Task → List Task
  | [] => [a]
  | b :: l => if le a b then a :: b :: l else b :: insertLe le a l

/-- Stable insertion sort by `le`; refines `sort.Slice` (see the header). -/
def sortByLe (le : Task → Task → Bool) : List Task → List Task
  | [] => []
  | a :: l => insertLe le a (sortByLe le l)

/-- The default sort injected by `applySorting` when none is given. -/
def defaultSort : TaskSort := { field := "created_at", order := "desc" }

/-- `applySorting` from `task_service.go`: sort by the comparator, default
`created_at desc`; `sort.Slice`'s `less` becomes `le a b := !(less b a)`. -/
def applySorting (tasks : List Task) (sortOptions : Option TaskSort) :
    List Task :=
  let o := sortOptions.getD defaultSort
  sortByLe (fun a b => !(lessTask o b a)) tasks

/-- The owner scan at the top of `ListTasks`. -/
def ownedTasks (s : Store) (userID : Nat) : List Task :=
  List.filter (fun t => t.userId == userID) s

/-- The filtered and sorted sequence `ListTasks` paginates over. -/
def sortedPipeline (s : Store) (filter : Option TaskFilter)
    (srt : Option TaskSort) (userID : Nat) : List Task :=
  applySorting (applyFilters (ownedTasks s userID) filter) srt

/-- `ListTasks` from `task_service.go`: scan, filter, sort, then apply the
page window `[start, start+limit)` clipped to the sequence length. -/
def ListTasks (s : Store) (filter : Option TaskFilter) (srt : Option TaskSort)
    (page limit : Nat) (userID : Nat) : List Task × PaginationInfo :=
  let sortedTasks := sortedPipeline s filter srt userID
  let total := sortedTasks.length
  let totalPages := (total + limit - 1) / limit
  let start := (page - 1) * limit
  let stop := start + limit
  if sortedTasks.length ≤ start then
    ([], { page := page, limit := limit, total := total,
           totalPages := totalPages })
  else
    ((sortedTasks.drop start).take (min stop sortedTasks.length - start),
     { page := page, limit := limit, total := total,
       totalPages := totalPages })

/-- `parsePagination` (page half) from
`internal/handler/task/task_handler.go`: `c.Query("page")` yields `""` when
the parameter is absent; `strconv.Atoi` is modelled by `atoi`. -/
def parsePage (pageStr : String) : Int :=
  if pageStr ≠ "" then
    match atoi pageStr with
    | some p => if 0 < p then p else 1
    | none => 1
  else 1

/-- `parsePagination` (limit half) from `task_handler.go`: a parsed value is
used only when `0 < l ∧ l ≤ 100`; anything else keeps the default 10. -/
def parseLimit (limitStr : String) : Int :=
  if limitStr ≠ "" then
    match atoi limitStr with
    | some l => if 0 < l ∧ l ≤ 100 then l else 10
    | none => 10
  else 10

/-- `User` from the auth domain (`internal/domain/auth`). -/
structure User where
  id : Nat
  email : String
  password : String
  createdAt : Nat
  updatedAt : Nat
deriving DecidableEq, Repr

/-- `LoginRequest` from the auth domain. -/
structure LoginRequest where
  email : String
  password : String
deriving DecidableEq, Repr

/-- `TokenResponse` from the auth domain. -/
structure TokenResponse where
  accessToken : String
  refreshToken : String
  tokenType : String
  expiresIn : Nat
deriving DecidableEq, Repr

/-- Modelled from the spec: `isValidEmail` lives in the auth domain source,
which is absent from `src/` (only its unit tests are present).  Per those
tests a basic check suffices: the email must contain an `@` that is not its
last character ("test@example.com" and "test@@example.com" pass; "test",
"test@", "test.example.com" and "" fail). -/
def isValidEmail (email : String) : Bool :=
  email.toList.contains '@' && !(email.toList.getLast? == some '@')

/-- Modelled from the spec: `LoginRequest.Validate`, the request-shape
validation of the login request, is absent from `src/`; its behavior is fixed
by its unit tests: trimmed email required, email well-formed, trimmed
password required, password at least 8 characters. -/
def LoginRequest.validate (req : LoginRequest) : Option String :=
  if strTrim req.email = "" then some "email is required"
  else if !isValidEmail req.email then some "invalid email format"
  else if strTrim req.password = "" then some "password is required"
  else if req.password.length < 8 then
    some "password must be at least 8 characters long"
  else none

/-- Modelled from the spec: `utils.GenerateToken` (absent from `src/`) is
opaque stateless token issuance bound to the user and a ttl; in the model
signing always succeeds. -/
def GenerateToken (secret : String) (userID : Nat) (email : String)
    (ttl : Nat) : Option String :=
  some (secret ++ ":" ++ toString userID ++ ":" ++ email ++ ":" ++ toString ttl)

/-- `Login` from the auth service (`src/unnamed/part_000`): request-shape
validation, user lookup by email, password comparison, token issuance.  The
user map is one enumeration of the Go map keyed by email. -/
def Login (users : List (String × User)) (secret : String)
    (accessTTL refreshTTL : Nat) (req : LoginRequest) :
    Except String TokenResponse :=
  match req.validate with
  | some e => Except.error e
  | none =>
    match users.lookup req.email with
    | none => Except.error "invalid email or password"
    | some user =>
      if user.password ≠ req.password then
        Except.error "invalid email or password"
      else
        match GenerateToken secret user.id user.email accessTTL with
        | none => Except.error "failed to generate access token"
        | some accessToken =>
          match GenerateToken secret user.id user.email refreshTTL with
          | none => Except.error "failed to generate refresh token"
          | some refreshToken =>
            Except.ok { accessToken := accessToken,
                        refreshToken := refreshToken,
                        tokenType := "Bearer", expiresIn := accessTTL }

/-! Concrete fixtures used by witnesses and counterexamples. -/

/-- A pending task for user 1 with timestamps `i`. -/
def mkTask (i : Nat) : Task :=
  { id := i, title := "t", status := "pending", userId := 1,
    createdAt := i, updatedAt := i }

/-- Five tasks of user 1, for the total=5/size=2 pagination scenario. -/
def demo5 : Store := [mkTask 1, mkTask 2, mkTask 3, mkTask 4, mkTask 5]

/-- Tied task (same `createdAt` as `tieB`) enumerated first. -/
def tieA : Task :=
  { id := 1, title := "a", status := "pending", userId := 7,
    createdAt := 10, updatedAt := 10 }

/-- Tied task (same `createdAt` as `tieA`) enumerated second. -/
def tieB : Task :=
  { id := 2, title := "b", status := "pending", userId := 7,
    createdAt := 10, updatedAt := 10 }

/-- Task titled "Alpha" for the case-insensitive search scenario. -/
def alphaT : Task :=
  { id := 1, title := "Alpha", status := "pending", userId := 1,
    createdAt := 1, updatedAt := 1 }

/-- Task titled "beta" for the case-insensitive search scenario. -/
def betaT : Task :=
  { id := 2, title := "beta", status := "pending", userId := 1,
    createdAt := 2, updatedAt := 2 }

/-- Task titled "Gamma" for the case-insensitive search scenario. -/
def gammaT : Task :=
  { id := 3, title := "Gamma", status := "pending", userId := 1,
    createdAt := 3, updatedAt := 3 }

/-- A title of 201 characters whose trimmed form is the single character
`a`: valid by the spec's "≤ 200 characters after trimming", rejected by the
code's untrimmed length check. -/
def cexTitle : String := (List.replicate 200 ' ' ++ ['a']).asString

/-- The task created from the whitespace-padded title `"  x  "`. -/
def spacedTask : Task := NewTask 5 "  x  " 1 0

/-- Seeded user for the login scenarios. -/
def demoUser : User :=
  { id := 1, email := "john@example.com", password := "password123",
    createdAt := 0, updatedAt := 0 }

/-- The seeded user map for the login scenarios. -/
def demoUsers : List (String × User) := [("john@example.com", demoUser)]

/-! Helper lemmas about the sort, the filters and the page window. -/

/-- Inserting an element permutes consing it. -/
theorem insertLe_perm (le : Task → Task → Bool) (a : Task) :
    ∀ l : List Task, (insertLe le a l).Perm (a :: l) := by
  intro l
  induction l with
  | nil => exact List.Perm.refl _
  | cons b t ih =>
    unfold insertLe
    by_cases h : le a b
    · simp only [h, if_true]
      exact List.Perm.refl _
    · simp only [h, if_false]
      exact (ih.cons b).trans (List.Perm.swap a b t)

/-- The insertion sort permutes its input. -/
theorem sortByLe_perm (le : Task → Task → Bool) :
    ∀ l : List Task, (sortByLe le l).Perm l := by
  intro l
  induction l with
  | nil => exact List.Perm.refl _
  | cons a t ih =>
    exact (insertLe_perm le a (sortByLe le t)).trans (ih.cons a)

/-- Inserting below every element of the list puts the element in front. -/
theorem insertLe_of_head (le : Task → Task → Bool) (a : Task) :
    ∀ l : List Task, (∀ b ∈ l, le a b = true) → insertLe le a l = a :: l := by
  intro l h
  cases l with
  | nil => rfl
  | cons b t =>
    unfold insertLe
    simp only [h b (List.mem_cons_self b t), if_true]

/-- An input already consistently ordered for `le` is left unchanged:
the stability of the insertion sort. -/
theorem sortByLe_of_pairwise (le : Task → Task → Bool) :
    ∀ l : List Task, l.Pairwise (fun a b => le a b = true) →
      sortByLe le l = l := by
  intro l h
  induction l with
  | nil => rfl
  | cons a t ih =>
    rw [List.pairwise_cons] at h
    unfold sortByLe
    rw [ih h.2, insertLe_of_head le a t h.1]

/-- `applySorting` permutes its input. -/
theorem applySorting_perm (tasks : List Task) (srt : Option TaskSort) :
    (applySorting tasks srt).Perm tasks :=
  sortByLe_perm _ tasks

/-- The codepoint-lexicographic order is asymmetric. -/
theorem listLtChars_asymm : ∀ x y : List Char,
    listLtChars x y = true → listLtChars y x = false := by
  intro x
  induction x with
  | nil =>
    intro y h
    cases y with
    | nil => simp [listLtChars] at h
    | cons b bs => rfl
  | cons a as ih =>
    intro y h
    cases y with
    | nil => simp [listLtChars] at h
    | cons b bs =>
      unfold listLtChars at h ⊢
      by_cases h1 : a.toNat < b.toNat
      · rw [if_neg (by omega), if_pos h1]
      · rw [if_neg h1] at h
        by_cases h2 : b.toNat < a.toNat
        · rw [if_pos h2] at h
          exact absurd h (by simp)
        · rw [if_neg h2] at h
          rw [if_neg h2, if_neg h1]
          exact ih bs h

/-- Two character lists are never lexicographically below each other. -/
theorem listLtChars_not_both (x y : List Char) :
    listLtChars x y = false ∨ listLtChars y x = false := by
  cases hxy : listLtChars x y with
  | false => exact Or.inl rfl
  | true => exact Or.inr (listLtChars_asymm x y hxy)

/-- Negative transitivity of the codepoint-lexicographic order. -/
theorem listLtChars_negtrans : ∀ z x y : List Char,
    listLtChars y x = false → listLtChars z y = false →
      listLtChars z x = false := by
  intro z
  induction z with
  | nil =>
    intro x y h1 h2
    cases x with
    | nil => rfl
    | cons a as =>
      cases y with
      | nil => simp [listLtChars] at h1
      | cons b bs => simp [listLtChars] at h2
  | cons c cs ih =>
    intro x y h1 h2
    cases x with
    | nil => rfl
    | cons a as =>
      cases y with
      | nil => simp [listLtChars] at h1
      | cons b bs =>
        unfold listLtChars at h1 h2 ⊢
        by_cases hba : b.toNat < a.toNat
        · rw [if_pos hba] at h1
          exact absurd h1 (by simp)
        · rw [if_neg hba] at h1
          by_cases hcb : c.toNat < b.toNat
          · rw [if_pos hcb] at h2
            exact absurd h2 (by simp)
          · rw [if_neg hcb] at h2
            rw [if_neg (show ¬(c.toNat < a.toNat) by omega)]
            by_cases hac : a.toNat < c.toNat
            · rw [if_pos hac]
            · rw [if_neg hac]
              rw [if_neg (show ¬(a.toNat < b.toNat) by omega)] at h1
              rw [if_neg (show ¬(b.toNat < c.toNat) by omega)] at h2
              exact ih as bs h1 h2

/-- `strLt` is never true in both directions. -/
theorem strLt_not_both (x y : String) :
    strLt x y = false ∨ strLt y x = false :=
  listLtChars_not_both x.toList y.toList

/-- Negative transitivity of `strLt`. -/
theorem strLt_negtrans (x y z : String) (h1 : strLt y x = false)
    (h2 : strLt z y = false) : strLt z x = false :=
  listLtChars_negtrans z.toList x.toList y.toList h1 h2

/-- The decided `Nat` order is never true in both directions. -/
theorem natLt_not_both (x y : Nat) :
    decide (x < y) = false ∨ decide (y < x) = false := by
  by_cases h : x < y
  · right
    simp only [decide_eq_false_iff_not]
    omega
  · left
    simp only [decide_eq_false_iff_not]
    exact h

/-- Negative transitivity of the decided `Nat` order. -/
theorem natLt_negtrans (x y z : Nat) (h1 : decide (y < x) = false)
    (h2 : decide (z < y) = false) : decide (z < x) = false := by
  simp only [decide_eq_false_iff_not] at h1 h2 ⊢
  omega

/-- The `sort.Slice` comparator is never true in both directions, for every
sort specification. -/
theorem lessTask_not_both (o : TaskSort) (a b : Task) :
    lessTask o a b = false ∨ lessTask o b a = false := by
  unfold lessTask
  split_ifs <;>
    first
    | exact strLt_not_both _ _
    | exact natLt_not_both _ _

/-- Negative transitivity of the `sort.Slice` comparator, for every sort
specification. -/
theorem lessTask_negtrans (o : TaskSort) (x y z : Task)
    (h1 : lessTask o y x = false) (h2 : lessTask o z y = false) :
    lessTask o z x = false := by
  unfold lessTask at h1 h2 ⊢
  split_ifs at h1 h2 ⊢ <;>
    first
    | exact strLt_negtrans _ _ _ h1 h2
    | exact strLt_negtrans _ _ _ h2 h1
    | exact natLt_negtrans _ _ _ h1 h2
    | exact natLt_negtrans _ _ _ h2 h1

/-- Membership after insertion. -/
theorem mem_insertLe (le : Task → Task → Bool) (a x : Task)
    (l : List Task) : x ∈ insertLe le a l ↔ x = a ∨ x ∈ l := by
  rw [(insertLe_perm le a l).mem_iff, List.mem_cons]

/-- Inserting into a `le`-pairwise list keeps it pairwise, for a total and
transitive `le`. -/
theorem pairwise_insertLe (le : Task → Task → Bool)
    (htotal : ∀ a b, le a b = true ∨ le b a = true)
    (htrans : ∀ a b c, le a b = true → le b c = true → le a c = true)
    (a : Task) :
    ∀ l : List Task, l.Pairwise (fun x y => le x y = true) →
      (insertLe le a l).Pairwise (fun x y => le x y = true) := by
  intro l
  induction l with
  | nil =>
    intro _
    simp [insertLe]
  | cons b t ih =>
    intro hl
    rw [List.pairwise_cons] at hl
    obtain ⟨hb, ht⟩ := hl
    unfold insertLe
    by_cases hab : le a b = true
    · rw [if_pos hab, List.pairwise_cons]
      refine ⟨?_, List.pairwise_cons.mpr ⟨hb, ht⟩⟩
      intro x hx
      rcases List.mem_cons.mp hx with hxb | hxt
      · rw [hxb]
        exact hab
      · exact htrans a b x hab (hb x hxt)
    · rw [if_neg hab, List.pairwise_cons]
      refine ⟨?_, ih ht⟩
      intro x hx
      rcases (mem_insertLe le a x t).mp hx with hxa | hxt
      · rw [hxa]
        rcases htotal a b with h | h
        · exact absurd h hab
        · exact h
      · exact hb x hxt

/-- The insertion sort output is pairwise `le`-ordered, for a total and
transitive `le` — the postcondition `sort.Slice` guarantees. -/
theorem sortByLe_pairwise (le : Task → Task → Bool)
    (htotal : ∀ a b, le a b = true ∨ le b a = true)
    (htrans : ∀ a b c, le a b = true → le b c = true → le a c = true) :
    ∀ l : List Task, (sortByLe le l).Pairwise (fun x y => le x y = true) := by
  intro l
  induction l with
  | nil => simp [sortByLe]
  | cons a t ih =>
    show (insertLe le a (sortByLe le t)).Pairwise _
    exact pairwise_insertLe le htotal htrans a (sortByLe le t) ih

/-- Insertion acts on a `le`-clique subsequence by prepending the inserted
element when it belongs to the clique and leaving it untouched otherwise. -/
theorem filter_insertLe (le : Task → Task → Bool) (p : Task → Bool)
    (hcl : ∀ x y, p x = true → p y = true → le x y = true) (b : Task) :
    ∀ m : List Task, (insertLe le b m).filter p =
      if p b then b :: m.filter p else m.filter p := by
  intro m
  induction m with
  | nil =>
    show List.filter p [b] = _
    simp [List.filter_cons]
  | cons c m' ih =>
    unfold insertLe
    by_cases hbc : le b c = true
    · rw [if_pos hbc, List.filter_cons]
    · rw [if_neg hbc]
      cases hb : p b with
      | false => simp [List.filter_cons, ih, hb]
      | true =>
        cases hc : p c with
        | true => exact absurd (hcl b c hb hc) hbc
        | false => simp [List.filter_cons, ih, hb, hc]

/-- Stability of the insertion sort: the subsequence of any `le`-clique —
in particular of any tie class of the comparator — is exactly its input
subsequence, in the input order. -/
theorem filter_sortByLe (le : Task → Task → Bool) (p : Task → Bool)
    (hcl : ∀ x y, p x = true → p y = true → le x y = true) :
    ∀ l : List Task, (sortByLe le l).filter p = l.filter p := by
  intro l
  induction l with
  | nil => rfl
  | cons a t ih =>
    show (insertLe le a (sortByLe le t)).filter p = _
    rw [filter_insertLe le p hcl a (sortByLe le t), ih, List.filter_cons]

/-- Filtering yields a sublist of the input. -/
theorem applyFilters_sublist (tasks : List Task) (f : Option TaskFilter) :
    (applyFilters tasks f).Sublist tasks := by
  cases f with
  | none => exact List.Sublist.refl _
  | some fl => exact List.filter_sublist _

/-- Membership in the filtered list decomposed into the source facts. -/
theorem mem_applyFilters (tasks : List Task) (fl : TaskFilter) (t : Task)
    (ht : t ∈ applyFilters tasks (some fl)) :
    t ∈ tasks ∧
    (∀ st, fl.status = some st → t.status = st) ∧
    (fl.search ≠ "" → titleMatches t.title fl.search = true) := by
  unfold applyFilters at ht
  rw [List.mem_filter] at ht
  obtain ⟨hmem, hpred⟩ := ht
  rw [Bool.and_eq_true] at hpred
  obtain ⟨hstat, hsearch⟩ := hpred
  refine ⟨hmem, ?_, ?_⟩
  · intro st hst
    rw [hst] at hstat
    exact eq_of_beq hstat
  · intro hne
    rw [Bool.or_eq_true] at hsearch
    cases hsearch with
    | inl h => exact absurd (eq_of_beq h) hne
    | inr h => exact h


/-- The page metadata returned by `ListTasks`, in closed form. -/
theorem listTasks_meta (s : Store) (f : Option TaskFilter)
    (srt : Option TaskSort) (page limit u : Nat) :
    (ListTasks s f srt page limit u).2 =
      { page := page, limit := limit,
        total := (sortedPipeline s f srt u).length,
        totalPages :=
          ((sortedPipeline s f srt u).length + limit - 1) / limit } := by
  unfold ListTasks
  dsimp only
  split <;> rfl

/-- The items returned by `ListTasks` are exactly the window
`[(page-1)*limit, (page-1)*limit + limit)` of the sorted filtered sequence,
clipped to the sequence — uniformly, also when the window starts past the
end. -/
theorem listTasks_items (s : Store) (f : Option TaskFilter)
    (srt : Option TaskSort) (page limit u : Nat) :
    (ListTasks s f srt page limit u).1 =
      ((sortedPipeline s f srt u).drop ((page - 1) * limit)).take limit := by
  unfold ListTasks
  dsimp only
  split
  · next h =>
    rw [List.drop_eq_nil_of_le h, List.take_nil]
  · next h =>
    rw [Nat.not_le] at h
    rcases le_or_lt ((page - 1) * limit + limit)
        (sortedPipeline s f srt u).length with hle | hlt
    · rw [Nat.min_eq_left hle, Nat.add_sub_cancel_left]
    · rw [Nat.min_eq_right (Nat.le_of_lt hlt)]
      rw [List.take_of_length_le, List.take_of_length_le]
      · rw [List.length_drop]
        omega
      · rw [List.length_drop]

/-- `(t + m - 1) / m` is ceiling division: it is the least `k` with
`t ≤ m * k`. -/
theorem ceil_div_le_iff (t m k : Nat) (hm : 1 ≤ m) :
    (t + m - 1) / m ≤ k ↔ t ≤ m * k := by
  rw [← Nat.not_lt, Nat.lt_iff_add_one_le, Nat.le_div_iff_mul_le hm,
    Nat.add_one_mul, Nat.mul_comm m k]
  generalize k * m = p
  omega

/-! The claims. -/

/-- C1: for every list call with page ≥ 1 and size ≥ 1, `total` counts the
requester's tasks after filtering and before pagination, the total page
count is `ceil(total / size)` (equivalently: the least `k` with
`total ≤ size * k`), equal to 0 when `total = 0`, and the returned items are
the window `[(page-1)*size, (page-1)*size + size)` of the sorted filtered
sequence clipped to its length; when the window starts at or past the end
the item list is empty while the metadata still reflects `total` and
`total_pages`. -/
theorem C1_list_pagination (s : Store) (f : Option TaskFilter)
    (srt : Option TaskSort) (page limit u : Nat)
    (_hp : 1 ≤ page) (hl : 1 ≤ limit) :
    (ListTasks s f srt page limit u).2.total =
      (sortedPipeline s f srt u).length ∧
    (ListTasks s f srt page limit u).2.totalPages =
      ((sortedPipeline s f srt u).length + limit - 1) / limit ∧
    ((sortedPipeline s f srt u).length = 0 →
      (ListTasks s f srt page limit u).2.totalPages = 0) ∧
    (∀ k, (ListTasks s f srt page limit u).2.totalPages ≤ k ↔
      (sortedPipeline s f srt u).length ≤ limit * k) ∧
    (ListTasks s f srt page limit u).1 =
      ((sortedPipeline s f srt u).drop ((page - 1) * limit)).take limit ∧
    ((sortedPipeline s f srt u).length ≤ (page - 1) * limit →
      (ListTasks s f srt page limit u).1 = []) := by
  refine ⟨?_, ?_, ?_, ?_, ?_, ?_⟩
  · rw [listTasks_meta]
  · rw [listTasks_meta]
  · intro h0
    rw [listTasks_meta]
    dsimp only
    rw [h0]
    exact Nat.div_eq_of_lt (by omega)
  · intro k
    rw [listTasks_meta]
    exact ceil_div_le_iff _ _ k hl
  · exact listTasks_items s f srt page limit u
  · intro h
    rw [listTasks_items s f srt page limit u,
      List.drop_eq_nil_of_le h, List.take_nil]

/-- Witness for C1 at the spec's scenario: five tasks, size 2 — pages of
2, 2, 1 with `total_pages = 3`; page 4 yields no items but keeps the
metadata. -/
theorem C1_list_pagination_witness :
    1 ≤ 4 ∧ 1 ≤ 2 ∧
    (ListTasks demo5 none none 4 2 1).1 = [] ∧
    (ListTasks demo5 none none 4 2 1).2.total = 5 ∧
    (ListTasks demo5 none none 4 2 1).2.totalPages = 3 ∧
    (ListTasks demo5 none none 1 2 1).1.length = 2 ∧
    (ListTasks demo5 none none 2 2 1).1.length = 2 ∧
    (ListTasks demo5 none none 3 2 1).1.length = 1 :=
  ⟨by decide, by decide,
   (C1_list_pagination demo5 none none 4 2 1 (by decide)
     (by decide)).2.2.2.2.2 (by decide),
   by decide, by decide, by decide, by decide, by decide⟩

/-- Counterexample to C2 as stated: the two stores hold exactly the same
tasks (the Go map determines its contents only up to enumeration order, and
its iteration order is unspecified), the list parameters are identical, yet
the returned item sequences differ, because the two tasks tie under the
default `created_at` sort and keep their enumeration order. -/
theorem C2_counterexample :
    ([tieA, tieB] : Store).Perm [tieB, tieA] ∧
    (ListTasks [tieA, tieB] none none 1 10 7).1 ≠
      (ListTasks [tieB, tieA] none none 1 10 7).1 :=
  ⟨List.Perm.swap tieB tieA [], by decide⟩

/-- C2 amended: the sort returns a permutation of the filtered tasks that
is ordered by the resolved comparator — no returned item is
comparator-less than any item before it (the two facts `sort.Slice` itself
guarantees) — while tie order is not determined by the code: it is
inherited from the store's enumeration order, which is unspecified for the
Go map, so sequences are guaranteed identical only relative to one fixed
enumeration.  Of the stable refinement `sortByLe` the third conjunct proves
the enumeration-order guarantee in full: every tie class of the comparator
is returned as exactly its input subsequence, in enumeration order. -/
theorem C2_sorting_amended (tasks : List Task) (srt : Option TaskSort) :
    (applySorting tasks srt).Perm tasks ∧
    (applySorting tasks srt).Pairwise
      (fun a b => lessTask (srt.getD defaultSort) b a = false) ∧
    ∀ a, (applySorting tasks srt).filter (tieTask (srt.getD defaultSort) a)
      = tasks.filter (tieTask (srt.getD defaultSort) a) := by
  refine ⟨applySorting_perm tasks srt, ?_, ?_⟩
  · have htotal : ∀ a b : Task,
        (!(lessTask (srt.getD defaultSort) b a)) = true ∨
        (!(lessTask (srt.getD defaultSort) a b)) = true := by
      intro a b
      rcases lessTask_not_both (srt.getD defaultSort) b a with h | h
      · exact Or.inl (by rw [Bool.not_eq_true', h])
      · exact Or.inr (by rw [Bool.not_eq_true', h])
    have htrans : ∀ a b c : Task,
        (!(lessTask (srt.getD defaultSort) b a)) = true →
        (!(lessTask (srt.getD defaultSort) c b)) = true →
        (!(lessTask (srt.getD defaultSort) c a)) = true := by
      intro a b c h1 h2
      rw [Bool.not_eq_true'] at h1 h2 ⊢
      exact lessTask_negtrans (srt.getD defaultSort) a b c h1 h2
    have hp : (applySorting tasks srt).Pairwise
        (fun a b => (!(lessTask (srt.getD defaultSort) b a)) = true) :=
      sortByLe_pairwise
        (fun a b => !(lessTask (srt.getD defaultSort) b a))
        htotal htrans tasks
    exact hp.imp (fun h => by rwa [Bool.not_eq_true'] at h)
  · intro a
    have hcl : ∀ x y : Task,
        tieTask (srt.getD defaultSort) a x = true →
        tieTask (srt.getD defaultSort) a y = true →
        (!(lessTask (srt.getD defaultSort) y x)) = true := by
      intro x y hx hy
      unfold tieTask at hx hy
      rw [Bool.and_eq_true] at hx hy
      obtain ⟨hax, _⟩ := hx
      obtain ⟨_, hya⟩ := hy
      rw [Bool.not_eq_true'] at hax hya ⊢
      exact lessTask_negtrans (srt.getD defaultSort) x a y hax hya
    exact filter_sortByLe
      (fun a b => !(lessTask (srt.getD defaultSort) b a))
      (tieTask (srt.getD defaultSort) a) hcl tasks

/-- Witness for C2 amended: on the tied two-task store the sort is a
permutation, comparator-ordered, and returns the tie class `{tieA, tieB}`
in exactly its enumeration order. -/
theorem C2_sorting_amended_witness :
    (applySorting [tieA, tieB] none).Perm [tieA, tieB] ∧
    (applySorting [tieA, tieB] none).Pairwise
      (fun a b => lessTask (Option.getD none defaultSort) b a = false) ∧
    (applySorting [tieA, tieB] none).filter
        (tieTask (Option.getD none defaultSort) tieA) =
      ([tieA, tieB] : List Task).filter
        (tieTask (Option.getD none defaultSort) tieA) :=
  ⟨(C2_sorting_amended [tieA, tieB] none).1,
   (C2_sorting_amended [tieA, tieB] none).2.1,
   (C2_sorting_amended [tieA, tieB] none).2.2 tieA⟩

/-- C3: `GetByID` answers NotFound whenever the id is absent — for every
requester, owner or not — and AccessDenied exactly when the task exists
with a different owner; the existence check strictly precedes the
ownership check. -/
theorem C3_get_existence_before_ownership (s : Store) (id u : Nat)
    (t : Task) :
    (findTask s id = none →
      GetTaskByID s id u = Except.error "task not found") ∧
    (findTask s id = some t → t.userId ≠ u →
      GetTaskByID s id u = Except.error "access denied") ∧
    (findTask s id = some t → t.userId = u →
      GetTaskByID s id u = Except.ok t) := by
  refine ⟨?_, ?_, ?_⟩
  · intro h
    unfold GetTaskByID
    rw [h]
  · intro h hne
    unfold GetTaskByID
    rw [h]
    dsimp only
    rw [if_pos hne]
  · intro h heq
    unfold GetTaskByID
    rw [h]
    dsimp only
    rw [if_neg (fun hne => hne heq)]

/-- Witness for C3: a probe of an absent id by a non-owner sees NotFound, an
existing task of another owner gives AccessDenied, and the owner gets the
task. -/
theorem C3_get_existence_before_ownership_witness :
    GetTaskByID [alphaT] 99 5 = Except.error "task not found" ∧
    GetTaskByID [alphaT] 1 5 = Except.error "access denied" ∧
    GetTaskByID [alphaT] 1 1 = Except.ok alphaT :=
  ⟨(C3_get_existence_before_ownership [alphaT] 99 5 alphaT).1 (by decide),
   (C3_get_existence_before_ownership [alphaT] 1 5 alphaT).2.1 (by decide)
     (by decide),
   (C3_get_existence_before_ownership [alphaT] 1 1 alphaT).2.2 (by decide)
     rfl⟩

set_option maxRecDepth 8000 in
/-- Counterexample to C4 as stated: a title of 200 spaces followed by `a`
is non-empty and 1 character long after trimming — so by the claim Create
must succeed — yet the code rejects it, because the 200-character bound is
checked on the untrimmed title (201 characters here). -/
theorem C4_counterexample :
    strTrim cexTitle ≠ "" ∧ (strTrim cexTitle).length ≤ 200 ∧
    (CreateTask [] cexTitle 1 1 0).1 =
      Except.error "title must be at most 200 characters" :=
  ⟨by decide, by decide, by decide⟩

/-- C4 amended: Create fails with a ValidationError exactly when the title
is empty after trimming or its untrimmed length exceeds 200; for every
title non-empty after trimming and of untrimmed length ≤ 200 it succeeds
and returns a task with status pending, owner `ownerID`, and equal creation
and update timestamps (both the call's clock reading). -/
theorem C4_create_validation_amended (s : Store) (title : String)
    (uid idg now : Nat) :
    ((CreateTask s title uid idg now).1 =
        Except.ok (NewTask idg title uid now) ↔
      (strTrim title ≠ "" ∧ title.length ≤ 200)) ∧
    (NewTask idg title uid now).status = "pending" ∧
    (NewTask idg title uid now).userId = uid ∧
    (NewTask idg title uid now).createdAt = now ∧
    (NewTask idg title uid now).updatedAt = now := by
  refine ⟨?_, rfl, rfl, rfl, rfl⟩
  unfold CreateTask
  by_cases h1 : strTrim title = ""
  · have hval : validateCreateTaskRequest title = some "title is required" := by
      unfold validateCreateTaskRequest
      rw [if_pos h1]
    rw [hval]
    simp [h1]
  · by_cases h2 : title.length > 200
    · have hval : validateCreateTaskRequest title =
          some "title must be at most 200 characters" := by
        unfold validateCreateTaskRequest
        rw [if_neg h1, if_pos h2]
      rw [hval]
      constructor
      · intro h
        exact absurd h (by simp)
      · intro hc
        exact absurd hc.2 (by omega)
    · have hval : validateCreateTaskRequest title = none := by
        unfold validateCreateTaskRequest
        rw [if_neg h1, if_neg h2]
      rw [hval]
      dsimp only
      constructor
      · intro _
        exact ⟨h1, by omega⟩
      · intro _
        rfl

/-- Counterexample to C5 as stated: a limit of 150 is not clamped to 100 —
the code discards it and falls back to the default 10. -/
theorem C5_counterexample :
    parseLimit "150" = 10 ∧ parseLimit "150" ≠ 100 :=
  ⟨by decide, by decide⟩

/-- C5 amended: page resolves to the parsed integer when positive and to
the default 1 otherwise; limit resolves to the parsed integer when it lies
in `(0, 100]` and to the default 10 otherwise — values above 100 are
discarded in favor of the default, not clamped, and non-integer or absent
values also yield the defaults. -/
theorem C5_parse_amended (str : String) (p l : Int) :
    parsePage "" = 1 ∧ parseLimit "" = 10 ∧
    (atoi str = none → parsePage str = 1 ∧ parseLimit str = 10) ∧
    (atoi str = some p → parsePage str = if 0 < p then p else 1) ∧
    (atoi str = some l →
      parseLimit str = if 0 < l ∧ l ≤ 100 then l else 10) := by
  refine ⟨rfl, rfl, ?_, ?_, ?_⟩
  · intro h
    by_cases hs : str = ""
    · subst hs
      exact ⟨rfl, rfl⟩
    · refine ⟨?_, ?_⟩
      · unfold parsePage
        rw [if_pos hs, h]
      · unfold parseLimit
        rw [if_pos hs, h]
  · intro h
    have hs : str ≠ "" := fun he => Option.noConfusion (he ▸ h)
    unfold parsePage
    rw [if_pos hs, h]
  · intro h
    have hs : str ≠ "" := fun he => Option.noConfusion (he ▸ h)
    unfold parseLimit
    rw [if_pos hs, h]

/-- Witness for C5 amended at the inputs "150", "0" and "7". -/
theorem C5_parse_amended_witness :
    atoi "150" = some 150 ∧ parsePage "150" = 150 ∧ parseLimit "150" = 10 ∧
    atoi "0" = some 0 ∧ parsePage "0" = 1 ∧
    atoi "7" = some 7 ∧ parseLimit "7" = 7 := by
  refine ⟨by decide, ?_, ?_, by decide, ?_, by decide, ?_⟩
  · have h := (C5_parse_amended "150" 150 150).2.2.2.1 (by decide)
    rw [if_pos (by decide)] at h
    exact h
  · have h := (C5_parse_amended "150" 150 150).2.2.2.2 (by decide)
    rw [if_neg (by decide)] at h
    exact h
  · have h := (C5_parse_amended "0" 0 0).2.2.2.1 (by decide)
    rw [if_neg (by decide)] at h
    exact h
  · have h := (C5_parse_amended "7" 7 7).2.2.2.2 (by decide)
    rw [if_pos (by decide)] at h
    exact h

/-- C6: with no filter the list pipeline is a permutation of exactly the
requester's tasks; every item any filtered list call returns is a task of
the store owned by the requester, matches a present status filter exactly,
and contains a non-empty search string case-insensitively in its title. -/
theorem C6_scope_and_filters (s : Store) (u : Nat) (srt : Option TaskSort)
    (page limit : Nat) (fl : TaskFilter) (t : Task)
    (ht : t ∈ (ListTasks s (some fl) srt page limit u).1) :
    (sortedPipeline s none srt u).Perm (ownedTasks s u) ∧
    t ∈ s ∧ t.userId = u ∧
    (∀ st, fl.status = some st → t.status = st) ∧
    (fl.search ≠ "" → titleMatches t.title fl.search = true) := by
  have hperm : (sortedPipeline s none srt u).Perm (ownedTasks s u) :=
    applySorting_perm (ownedTasks s u) srt
  rw [listTasks_items] at ht
  have hsorted : t ∈ sortedPipeline s (some fl) srt u :=
    List.Sublist.mem ht
      ((List.take_sublist _ _).trans (List.drop_sublist _ _))
  have hfil : t ∈ applyFilters (ownedTasks s u) (some fl) :=
    ((applySorting_perm (applyFilters (ownedTasks s u) (some fl))
      srt).mem_iff).1 hsorted
  have hdecomp := mem_applyFilters (ownedTasks s u) fl t hfil
  have howned := hdecomp.1
  unfold ownedTasks at howned
  rw [List.mem_filter] at howned
  exact ⟨hperm, howned.1, eq_of_beq howned.2, hdecomp.2.1, hdecomp.2.2⟩

/-- Witness for C6 at the spec's scenario: among "Alpha", "beta", "Gamma",
`search = "ALPHA"` returns exactly the "Alpha" task. -/
theorem C6_scope_and_filters_witness :
    alphaT ∈ (ListTasks [alphaT, betaT, gammaT]
      (some { status := none, search := "ALPHA" }) none 1 10 1).1 ∧
    (ListTasks [alphaT, betaT, gammaT]
      (some { status := none, search := "ALPHA" }) none 1 10 1).1 =
        [alphaT] ∧
    alphaT.userId = 1 ∧
    titleMatches alphaT.title "ALPHA" = true := by
  refine ⟨by decide, by decide, ?_, ?_⟩
  · exact (C6_scope_and_filters [alphaT, betaT, gammaT] 1 none 1 10
      { status := none, search := "ALPHA" } alphaT (by decide)).2.2.1
  · exact (C6_scope_and_filters [alphaT, betaT, gammaT] 1 none 1 10
      { status := none, search := "ALPHA" } alphaT (by decide)).2.2.2.2
      (by decide)

/-- C7: a successful Update keeps the task's id and owner, sets the update
timestamp to the call's clock reading (hence never below the previous one
when the clock is monotone), keeps every field absent from the patch —
and an empty patch always passes validation. -/
theorem C7_update_frame (s : Store) (id u now : Nat)
    (req : UpdateTaskRequest) (t0 t' : Task) (s' : Store)
    (h0 : findTask s id = some t0)
    (h : UpdateTask s id req u now = (Except.ok t', s')) :
    t'.id = t0.id ∧ t'.userId = t0.userId ∧ t'.updatedAt = now ∧
    (t0.updatedAt ≤ now → t0.updatedAt ≤ t'.updatedAt) ∧
    (req.title = none → t'.title = t0.title) ∧
    (req.status = none → t'.status = t0.status) ∧
    validateUpdateTaskRequest { title := none, status := none } = none := by
  unfold UpdateTask at h
  cases hval : validateUpdateTaskRequest req with
  | some e =>
    rw [hval] at h
    exact absurd (congrArg Prod.fst h) (by simp)
  | none =>
    rw [hval, h0] at h
    dsimp only at h
    by_cases hne : t0.userId ≠ u
    · rw [if_pos hne] at h
      exact absurd (congrArg Prod.fst h) (by simp)
    · rw [if_neg hne] at h
      have ht' : t0.applyPatch req now = t' := by
        have hfst := congrArg Prod.fst h
        simpa using hfst
      subst ht'
      refine ⟨rfl, rfl, rfl, ?_, ?_, ?_, rfl⟩
      · intro hmono
        exact hmono
      · intro hnone
        simp [Task.applyPatch, hnone]
      · intro hnone
        simp [Task.applyPatch, hnone]

/-- Witness for C7: updating `alphaT` with the empty patch succeeds, keeps
id, owner, title and status, and refreshes the timestamp to the call's
clock reading 9 ≥ 1. -/
theorem C7_update_frame_witness :
    findTask [alphaT] 1 = some alphaT ∧
    UpdateTask [alphaT] 1 { title := none, status := none } 1 9 =
      (Except.ok (alphaT.applyPatch { title := none, status := none } 9),
       [alphaT.applyPatch { title := none, status := none } 9]) ∧
    (alphaT.applyPatch { title := none, status := none } 9).id = alphaT.id ∧
    (alphaT.applyPatch { title := none, status := none } 9).userId =
      alphaT.userId ∧
    (alphaT.applyPatch { title := none, status := none } 9).updatedAt = 9 ∧
    alphaT.updatedAt ≤
      (alphaT.applyPatch { title := none, status := none } 9).updatedAt ∧
    (alphaT.applyPatch { title := none, status := none } 9).title =
      alphaT.title ∧
    (alphaT.applyPatch { title := none, status := none } 9).status =
      alphaT.status := by
  have hc := C7_update_frame [alphaT] 1 1 9 { title := none, status := none }
    alphaT (alphaT.applyPatch { title := none, status := none } 9)
    [alphaT.applyPatch { title := none, status := none } 9]
    (by decide) (by decide)
  exact ⟨by decide, by decide, hc.1, hc.2.1, hc.2.2.1,
    hc.2.2.2.1 (by decide), hc.2.2.2.2.1 rfl, hc.2.2.2.2.2.1 rfl⟩

/-- When `CreateTask` reports an error the store is unchanged. -/
theorem createTask_error_frame (s : Store) (title : String)
    (uid idg now : Nat) (e : String)
    (h : (CreateTask s title uid idg now).1 = Except.error e) :
    (CreateTask s title uid idg now).2 = s := by
  unfold CreateTask at h ⊢
  cases hval : validateCreateTaskRequest title with
  | some f => rfl
  | none =>
    rw [hval] at h
    dsimp only at h
    exact Except.noConfusion h

/-- When `UpdateTask` reports an error the store is unchanged. -/
theorem updateTask_error_frame (s : Store) (id : Nat)
    (req : UpdateTaskRequest) (u now : Nat) (e : String)
    (h : (UpdateTask s id req u now).1 = Except.error e) :
    (UpdateTask s id req u now).2 = s := by
  unfold UpdateTask at h ⊢
  cases hval : validateUpdateTaskRequest req with
  | some f => rfl
  | none =>
    rw [hval] at h
    dsimp only at h ⊢
    cases hfind : findTask s id with
    | none => rfl
    | some t =>
      rw [hfind] at h
      dsimp only at h ⊢
      by_cases hne : t.userId ≠ u
      · rw [if_pos hne]
      · rw [if_neg hne] at h
        dsimp only at h
        exact Except.noConfusion h

/-- When `DeleteTask` reports an error the store is unchanged. -/
theorem deleteTask_error_frame (s : Store) (id u : Nat) (e : String)
    (h : (DeleteTask s id u).1 = Except.error e) :
    (DeleteTask s id u).2 = s := by
  unfold DeleteTask at h ⊢
  cases hfind : findTask s id with
  | none => rfl
  | some t =>
    rw [hfind] at h
    dsimp only at h ⊢
    by_cases hne : t.userId ≠ u
    · rw [if_pos hne]
    · rw [if_neg hne] at h
      dsimp only at h
      exact Except.noConfusion h

/-- C8: whenever a lifecycle operation (Create, Update, Delete) returns an
error, the task store it returns is exactly the store it was given —
validation and the existence/ownership checks all precede any mutation, so
no partial mutation is possible. -/
theorem C8_no_partial_mutation (s₁ s₂ s₃ : Store) (title : String)
    (uid₁ idg now₁ id₂ uid₂ now₂ id₃ uid₃ : Nat) (req : UpdateTaskRequest)
    (e₁ e₂ e₃ : String)
    (h₁ : (CreateTask s₁ title uid₁ idg now₁).1 = Except.error e₁)
    (h₂ : (UpdateTask s₂ id₂ req uid₂ now₂).1 = Except.error e₂)
    (h₃ : (DeleteTask s₃ id₃ uid₃).1 = Except.error e₃) :
    (CreateTask s₁ title uid₁ idg now₁).2 = s₁ ∧
    (UpdateTask s₂ id₂ req uid₂ now₂).2 = s₂ ∧
    (DeleteTask s₃ id₃ uid₃).2 = s₃ :=
  ⟨createTask_error_frame s₁ title uid₁ idg now₁ e₁ h₁,
   updateTask_error_frame s₂ id₂ req uid₂ now₂ e₂ h₂,
   deleteTask_error_frame s₃ id₃ uid₃ e₃ h₃⟩

/-- Witness for C8: a create with an empty title, an update of an absent
id, and a delete by a non-owner all fail and leave their stores intact. -/
theorem C8_no_partial_mutation_witness :
    (CreateTask [alphaT] "" 1 9 0).1 = Except.error "title is required" ∧
    (UpdateTask [alphaT] 99 { title := none, status := none } 1 0).1 =
      Except.error "task not found" ∧
    (DeleteTask [alphaT] 1 5).1 = Except.error "access denied" ∧
    (CreateTask [alphaT] "" 1 9 0).2 = [alphaT] ∧
    (UpdateTask [alphaT] 99 { title := none, status := none } 1 0).2 =
      [alphaT] ∧
    (DeleteTask [alphaT] 1 5).2 = [alphaT] := by
  have hc := C8_no_partial_mutation [alphaT] [alphaT] [alphaT] ""
    1 9 0 99 1 0 1 5 { title := none, status := none }
    "title is required" "task not found" "access denied"
    (by decide) (by decide) (by decide)
  exact ⟨by decide, by decide, by decide, hc.1, hc.2.1, hc.2.2⟩

/-- C9: when a login request passes request-shape validation but
authentication fails — the email is unknown, or the stored secret differs —
the returned error is exactly "invalid email or password", identical in
both failure modes, so two failing runs are indistinguishable by their
error. -/
theorem C9_login_constant_error (users : List (String × User))
    (secret : String) (aTTL rTTL : Nat) (req : LoginRequest)
    (hv : req.validate = none)
    (hauth : users.lookup req.email = none ∨
      ∃ usr, users.lookup req.email = some usr ∧
        usr.password ≠ req.password) :
    Login users secret aTTL rTTL req =
      Except.error "invalid email or password" := by
  unfold Login
  rw [hv]
  dsimp only
  cases hauth with
  | inl h =>
    rw [h]
  | inr h =>
    obtain ⟨usr, hfind, hpw⟩ := h
    rw [hfind]
    dsimp only
    rw [if_pos hpw]

/-- Witness for C9: an unknown email and a wrong password for a seeded
email produce the same error message. -/
theorem C9_login_constant_error_witness :
    Login demoUsers "secret" 900 1800
      { email := "nobody@example.com", password := "password123" } =
        Except.error "invalid email or password" ∧
    Login demoUsers "secret" 900 1800
      { email := "john@example.com", password := "wrongpassword" } =
        Except.error "invalid email or password" :=
  ⟨C9_login_constant_error demoUsers "secret" 900 1800
     { email := "nobody@example.com", password := "password123" }
     (by decide) (Or.inl (by decide)),
   C9_login_constant_error demoUsers "secret" 900 1800
     { email := "john@example.com", password := "wrongpassword" }
     (by decide) (Or.inr ⟨demoUser, by decide, by decide⟩)⟩

/-- C10: a successful Create stores and returns the request title verbatim
— no trimming is applied before storage, validation only trims a copy to
test emptiness — and the created task is appended to the store. -/
theorem C10_title_stored_verbatim (s : Store) (title : String)
    (uid idg now : Nat) (t' : Task) (s' : Store)
    (h : CreateTask s title uid idg now = (Except.ok t', s')) :
    t'.title = title ∧ s' = s ++ [t'] ∧ t' ∈ s' := by
  unfold CreateTask at h
  cases hval : validateCreateTaskRequest title with
  | some e =>
    rw [hval] at h
    exact absurd (congrArg Prod.fst h) (by simp)
  | none =>
    rw [hval] at h
    dsimp only at h
    have ht : NewTask idg title uid now = t' := by
      have hfst := congrArg Prod.fst h
      simpa using hfst
    have hs : s ++ [NewTask idg title uid now] = s' := congrArg Prod.snd h
    subst ht
    subst hs
    exact ⟨rfl, rfl, List.mem_append_right s (List.mem_singleton_self _)⟩

/-- Witness for C10: the title `"  x  "` passes validation and is stored
with its surrounding whitespace intact. -/
theorem C10_title_stored_verbatim_witness :
    CreateTask [] "  x  " 1 5 0 = (Except.ok spacedTask, [spacedTask]) ∧
    spacedTask.title = "  x  " ∧
    ([spacedTask] : Store) = [] ++ [spacedTask] ∧
    spacedTask ∈ ([spacedTask] : Store) := by
  have hc := C10_title_stored_verbatim [] "  x  " 1 5 0 spacedTask
    [spacedTask] (by decide)
  exact ⟨by decide, hc.1, hc.2.1, hc.2.2⟩

end Todo
